import Mathlib

/-!
A verification development for the TravelGraphRAG cache-aside layer and the
hybrid retrieval logic built on top of it.

The definitions below are a shallow embedding of the Python sources:

* `src/cache_manager.py` — `CacheManager` (`__init__`, `is_available`,
  `_generate_key`, `get`, `set`, `delete`, `clear_pattern`, `flush_all`) and
  the `cached` decorator;
* `src/services/embedding_service.py` — `EmbeddingService._generate_cache_key`
  and `EmbeddingService.embed_batch`;
* `src/services/graph_db_service.py` — `GraphDBService.fetch_neighborhood`
  (including its `@cached` wrapper) and `fetch_multi_neighborhood`;
* `src/hybrid_chat.py` — `HybridChatService.retrieve_context`.

External collaborators (the Redis client, the OpenAI embedding endpoint, the
Neo4j session, the Pinecone index, the MD5 digest and CPython's builtin `hash`)
are modelled as explicit parameters: pure functions or `Except`-valued results.
Python values that flow through the JSON cache are modelled by the inductive
type `PyValue`, and `json.dumps` by `PyValue.dumps` (control-character and
non-ASCII escapes are elided: only nonemptiness and determinism of the
serialized form matter to the code under study).
-/

namespace TravelGraphRAG

/-- JSON-serializable Python values: the universe of values that
`cache_manager.py` round-trips through `json.dumps` / `json.loads`.
`null` doubles as Python `None`. -/
inductive PyValue where
  | null
  | bool (b : Bool)
  | int (n : Int)
  | str (s : String)
  | list (xs : List PyValue)
  | dict (kvs : List (String × PyValue))

/-- Python truthiness (`if x:`) restricted to the JSON universe. -/
def PyValue.truthy : PyValue → Bool
  | .null => false
  | .bool b => b
  | .int n => n != 0
  | .str s => s != ""
  | .list xs => !xs.isEmpty
  | .dict kvs => !kvs.isEmpty

/-- The `is None` test. -/
def PyValue.isNull : PyValue → Bool
  | .null => true
  | _ => false

/-- Digits of a positive natural, most significant first; `fuel` bounds the
recursion depth (any `fuel ≥ n ≥ 1` yields all digits of `n`). -/
def natReprAux : Nat → Nat → List Char
  | _, 0 => []
  | 0, _ + 1 => []
  | n + 1, fuel + 1 =>
      natReprAux ((n + 1) / 10) fuel ++ [Char.ofNat (48 + (n + 1) % 10)]

/-- Decimal rendering of a natural number, as produced by `str`/`json.dumps`. -/
def natRepr (n : Nat) : String :=
  if n = 0 then "0" else String.mk (natReprAux n n)

/-- Decimal rendering of a Python `int` (`str(n)`, also `json.dumps(n)`). -/
def intRepr : Int → String
  | .ofNat n => natRepr n
  | .negSucc n => "-" ++ natRepr (n + 1)

/-- JSON string escaping for the quote and backslash characters. -/
def jsonEscapeChar (c : Char) : String :=
  if c = '"' then "\\\"" else if c = '\\' then "\\\\" else String.singleton c

/-- A JSON string literal: `json.dumps` applied to a `str`. -/
def jsonQuote (s : String) : String :=
  "\"" ++ String.join (s.data.map jsonEscapeChar) ++ "\""

mutual

/-- `json.dumps` with its default separators (`", "` and `": "`). -/
def PyValue.dumps : PyValue → String
  | .null => "null"
  | .bool b => if b then "true" else "false"
  | .int n => intRepr n
  | .str s => jsonQuote s
  | .list xs => "[" ++ dumpsList xs ++ "]"
  | .dict kvs => "\x7b" ++ dumpsDict kvs ++ "\x7d"

/-- Comma-joined serializations of the elements of a JSON array. -/
def dumpsList : List PyValue → String
  | [] => ""
  | [v] => v.dumps
  | v :: w :: rest => v.dumps ++ ", " ++ dumpsList (w :: rest)

/-- Comma-joined `"key": value` serializations of a JSON object. -/
def dumpsDict : List (String × PyValue) → String
  | [] => ""
  | [(k, v)] => jsonQuote k ++ ": " ++ v.dumps
  | (k, v) :: w :: rest => jsonQuote k ++ ": " ++ v.dumps ++ ", " ++ dumpsDict (w :: rest)

end

theorem natRepr_ne_empty (n : Nat) : natRepr n ≠ "" := by
  unfold natRepr
  split
  · intro h
    exact absurd (congrArg String.data h) (by decide)
  · rename_i hn
    obtain ⟨m, rfl⟩ := Nat.exists_eq_succ_of_ne_zero hn
    intro h
    have hd : natReprAux (m + 1) (m + 1) = [] := congrArg String.data h
    rw [natReprAux] at hd
    exact absurd hd (by simp)

theorem intRepr_ne_empty (n : Int) : intRepr n ≠ "" := by
  cases n with
  | ofNat m => exact natRepr_ne_empty m
  | negSucc m =>
      intro h
      have := congrArg String.length h
      rw [intRepr] at this
      simp [String.length_append] at this
      exact absurd this.1 (by decide)

theorem jsonQuote_ne_empty (s : String) : jsonQuote s ≠ "" := by
  intro h
  have := congrArg String.length h
  rw [jsonQuote] at this
  simp [String.length_append] at this
  exact absurd this.2 (by decide)

/-- `json.dumps` never produces the empty string, so the `if value:`
truthiness test in `CacheManager.get` is equivalent to `value is not None`
on the raw Redis reply. -/
theorem PyValue.dumps_ne_empty (v : PyValue) : v.dumps ≠ "" := by
  cases v with
  | null => intro h; exact absurd (congrArg String.data h) (by decide)
  | bool b =>
      cases b <;> intro h <;> exact absurd (congrArg String.data h) (by decide)
  | int n => exact intRepr_ne_empty n
  | str s => exact jsonQuote_ne_empty s
  | list xs =>
      intro h
      have := congrArg String.length h
      rw [PyValue.dumps] at this
      simp [String.length_append] at this
      exact absurd this.2 (by decide)
  | dict kvs =>
      intro h
      have := congrArg String.length h
      rw [PyValue.dumps] at this
      simp [String.length_append] at this
      exact absurd this.2 (by decide)

/-- One cache entry as held by the backing Redis store: the stored JSON value
(physically the string `value.dumps`) together with the expiry set by `SETEX`.
Natural TTL expiry is enforced by Redis itself, outside this layer, and is not
modelled. -/
structure RedisEntry where
  value : PyValue
  ttl : Int

/-- The external Redis key-value store: an association list with at most one
binding per key (maintained by `Redis.setex`). -/
def Redis := List (String × RedisEntry)

/-- `SETEX key ttl value`: overwrite any previous binding of `key`. -/
def Redis.setex (r : Redis) (key : String) (e : RedisEntry) : Redis :=
  (key, e) :: r.filter (fun kv => kv.1 != key)

/-- Redis glob matching for `KEYS pattern` (`*`, `?` and literal characters;
character classes are not used by this codebase). -/
def globMatch : List Char → List Char → Bool
  | [], [] => true
  | '*' :: ps, [] => globMatch ps []
  | '*' :: ps, c :: cs => globMatch ps (c :: cs) || globMatch ('*' :: ps) cs
  | '?' :: ps, _ :: cs => globMatch ps cs
  | p :: ps, c :: cs => p == c && globMatch ps cs
  | _ :: _, [] => false
  | [], _ :: _ => false
termination_by ps cs => (cs.length, ps.length)

/-- The state of one `CacheManager` instance. `connected = true` models
`self.client` holding a live Redis client after a successful `ping()`;
`connected = false` models `self.client = None` after the handshake raised
`redis.ConnectionError`. No method ever reassigns `self.client`. -/
structure CacheManager where
  connected : Bool
  default_ttl : Int

/-- `CacheManager.__init__`: attempt the Redis handshake; on failure log and
set `self.client = None`. The handshake outcome is the parameter
`handshake_ok`; construction is a total function (it never raises). -/
def CacheManager.init (handshake_ok : Bool) (default_ttl : Int) : CacheManager :=
  { connected := handshake_ok, default_ttl := default_ttl }

/-- `CacheManager.is_available`: `self.client is not None`. -/
def CacheManager.is_available (cm : CacheManager) : Bool :=
  cm.connected

/-- `str` of a Python tuple whose elements have the given `repr` strings
(note the trailing comma of a 1-tuple). -/
def pyStrTuple (xs : List String) : String :=
  match xs with
  | [] => "()"
  | [x] => "(" ++ x ++ ",)"
  | _ => "(" ++ String.intercalate ", " xs ++ ")"

/-- `repr` of a `str` that needs no escaping (keyword names in this codebase
are plain identifiers). -/
def pyReprStr (s : String) : String :=
  "\x27" ++ s ++ "\x27"

/-- `str` of a list of `(name, value)` items, each value given by its `repr`
string. -/
def pyStrItems (kvs : List (String × String)) : String :=
  "[" ++ String.intercalate ", "
    (kvs.map (fun kv => "(" ++ pyReprStr kv.1 ++ ", " ++ kv.2 ++ ")")) ++ "]"

/-- The order `sorted` uses on `dict.items()`: lexicographic on the
`(name, value-repr)` pair. (Keys of a `dict` are distinct, so the value
component is never actually compared; including it makes the order total
and antisymmetric.) -/
def itemLe (a b : String × String) : Prop :=
  a.1 < b.1 ∨ (a.1 = b.1 ∧ a.2 ≤ b.2)

instance : DecidableRel itemLe := fun a b => by
  unfold itemLe; infer_instance

instance : IsTotal (String × String) itemLe := by
  constructor
  intro a b
  rcases lt_trichotomy a.1 b.1 with h | h | h
  · exact Or.inl (Or.inl h)
  · rcases le_total a.2 b.2 with h2 | h2
    · exact Or.inl (Or.inr ⟨h, h2⟩)
    · exact Or.inr (Or.inr ⟨h.symm, h2⟩)
  · exact Or.inr (Or.inl h)

instance : IsTrans (String × String) itemLe := by
  constructor
  intro a b c hab hbc
  rcases hab with hab | ⟨hab1, hab2⟩
  · rcases hbc with hbc | ⟨hbc1, hbc2⟩
    · exact Or.inl (hab.trans hbc)
    · exact Or.inl (hbc1 ▸ hab)
  · rcases hbc with hbc | ⟨hbc1, hbc2⟩
    · exact Or.inl (hab1 ▸ hbc)
    · exact Or.inr ⟨hab1.trans hbc1, hab2.trans hbc2⟩

instance : IsAntisymm (String × String) itemLe := by
  constructor
  intro a b hab hba
  rcases hab with hab | ⟨hab1, hab2⟩
  · rcases hba with hba | ⟨hba1, hba2⟩
    · exact absurd (hab.trans hba) (lt_irrefl _)
    · exact absurd hab (hba1 ▸ lt_irrefl _)
  · rcases hba with hba | ⟨hba1, hba2⟩
    · exact absurd hba (hab1 ▸ lt_irrefl _)
    · exact Prod.ext hab1 (le_antisymm hab2 hba2)

/-- `sorted(kwargs.items())`. -/
def sortItems (kvs : List (String × String)) : List (String × String) :=
  List.insertionSort itemLe kvs

/-- `CacheManager._generate_key(prefix, *args, **kwargs)`:
`key_data = f"{prefix}:{str(args)}:{str(sorted(kwargs.items()))}"` followed by
`f"{prefix}:{hashlib.md5(key_data.encode()).hexdigest()}"`. The MD5 digest is
the external parameter `md5hex`: a fixed pure function of its input, identical
in every process run. Positional arguments and keyword values enter via their
`repr` strings. -/
def CacheManager.generate_key (md5hex : String → String) (pre : String)
    (args : List String) (kwargs : List (String × String)) : String :=
  let key_data := pre ++ ":" ++ pyStrTuple args ++ ":" ++ pyStrItems (sortItems kwargs)
  pre ++ ":" ++ md5hex key_data

/-- `CacheManager.get`: `None` when degraded, `None` on a missing key, and the
deserialized value when the raw reply string is truthy. Since `json.dumps`
never yields the empty string (`PyValue.dumps_ne_empty`), the `if value:`
test succeeds exactly when the key is present; a stored JSON `null`
deserializes to Python `None`, which is what `.null` denotes here. -/
def CacheManager.get (cm : CacheManager) (r : Redis) (key : String) : PyValue :=
  if !cm.is_available then .null
  else
    match List.lookup key r with
    | none => .null
    | some e => if e.value.dumps = "" then .null else e.value

/-- `ttl = ttl or self.default_ttl`: Python `or` takes the default when the
argument is falsy, i.e. `None` or `0`. -/
def pyOrInt (t : Option Int) (d : Int) : Int :=
  match t with
  | none => d
  | some t => if t = 0 then d else t

/-- `CacheManager.set`: serialize and `SETEX` with `ttl or self.default_ttl`;
`False` without touching the store when degraded. -/
def CacheManager.set (cm : CacheManager) (r : Redis) (key : String)
    (value : PyValue) (ttl : Option Int) : Bool × Redis :=
  if !cm.is_available then (false, r)
  else
    let t := pyOrInt ttl cm.default_ttl
    (true, r.setex key ⟨value, t⟩)

/-- `CacheManager.delete`: `DEL key`, returning whether a key was removed. -/
def CacheManager.delete (cm : CacheManager) (r : Redis) (key : String) :
    Bool × Redis :=
  if !cm.is_available then (false, r)
  else
    let result : Nat := if (List.lookup key r).isSome then 1 else 0
    (decide (result > 0), r.filter (fun kv => kv.1 != key))

/-- `CacheManager.clear_pattern`: enumerate `KEYS pattern`, bulk-`DEL` them,
return the number deleted; `0` without touching the store when degraded. -/
def CacheManager.clear_pattern (cm : CacheManager) (r : Redis) (pat : String) :
    Nat × Redis :=
  if !cm.is_available then (0, r)
  else
    let keys := (r.map (fun kv => kv.1)).filter (fun k => globMatch pat.data k.data)
    if keys.isEmpty then (0, r)
    else (keys.length, r.filter (fun kv => !globMatch pat.data kv.1.data))

/-- `CacheManager.flush_all`: `FLUSHDB`; `False` without touching the store
when degraded. -/
def CacheManager.flush_all (cm : CacheManager) (r : Redis) : Bool × Redis :=
  if !cm.is_available then (false, r)
  else (true, ([] : Redis))

/-- Python exceptions propagated to the caller are modelled as `Except` with a
message. -/
abbrev Err := String

/-- The observable outcome of one call through the `cached` decorator's
`wrapper`: the returned value (or propagated exception), the store afterwards,
and instrumentation counting invocations of the wrapped function and calls to
`cache.set`. -/
structure WrapperOut where
  result : Except Err PyValue
  redis : Redis
  compute_calls : Nat
  store_writes : Nat

/-- One call through `cached(prefix=pre, ttl=ttl)`'s `wrapper`: build the key
with `_generate_key`, try `cache.get`, return a non-`None` cached result
without calling the wrapped function, otherwise call it, `cache.set` the
result and return it. `cm` is the `CacheManager()` the wrapper constructs for
this call; `compute` is the wrapped function applied to the same
`(args, kwargs)` the key was derived from. -/
def cachedCall (cm : CacheManager) (md5hex : String → String) (pre : String)
    (ttl : Option Int) (args : List String) (kwargs : List (String × String))
    (r : Redis) (compute : Unit → Except Err PyValue) : WrapperOut :=
  let cache_key := CacheManager.generate_key md5hex pre args kwargs
  let cached_result := cm.get r cache_key
  if !cached_result.isNull then ⟨.ok cached_result, r, 0, 0⟩
  else
    match compute () with
    | .error e => ⟨.error e, r, 1, 0⟩
    | .ok result =>
        let r2 := (cm.set r cache_key result ttl).2
        ⟨.ok result, r2, 1, 1⟩

/-- The `text` argument of `EmbeddingService._generate_cache_key`: a `str` or
a list of `str`. -/
inductive PyTextArg where
  | str (s : String)
  | strList (xs : List String)

/-- One OS process's `EmbeddingService`: the model name together with that
process's instance of CPython's builtin `hash` on `str`. Since Python 3.3 the
string hash is salted with a per-process random seed (`PYTHONHASHSEED`), so
each process run draws its own function `String → Int`. -/
structure EmbeddingService where
  model : String
  pyHash : String → Int

/-- `EmbeddingService._generate_cache_key`: join the first three entries when
given a list, then `f"embedding:{self.model}:{hash(text)}"`. -/
def EmbeddingService.generate_cache_key (svc : EmbeddingService)
    (text : PyTextArg) : String :=
  let t := match text with
    | .strList xs => String.intercalate "|" (xs.take 3)
    | .str s => s
  "embedding:" ++ svc.model ++ ":" ++ intRepr (svc.pyHash t)

/-- The first loop of `embed_batch` over `zip(texts, cache_keys)` starting at
index `i`: the `embeddings` list (with `None` placeholders), the `to_compute`
texts and the `to_compute_indices`. A cached value counts as a hit when it is
truthy (`if cached_embedding:`). -/
def embedScan (cm : CacheManager) (r : Redis) (i : Nat) :
    List (String × String) → List PyValue × List String × List Nat
  | [] => ([], [], [])
  | (text, cache_key) :: rest =>
      let cached_embedding := cm.get r cache_key
      let scan := embedScan cm r (i + 1) rest
      if cached_embedding.truthy then (cached_embedding :: scan.1, scan.2.1, scan.2.2)
      else (.null :: scan.1, text :: scan.2.1, i :: scan.2.2)

/-- The second loop of `embed_batch` over `zip(to_compute_indices,
response.data)`: write each new embedding into `embeddings[idx]` and
`cache_manager.set` it under `cache_keys[idx]`. -/
def fillPhase (cm : CacheManager) (ttl : Option Int) (cache_keys : List String) :
    List (Nat × PyValue) → Redis → List PyValue → Redis × List PyValue
  | [], r, es => (r, es)
  | (idx, v) :: rest, r, es =>
      let es2 := es.set idx v
      let r2 := (cm.set r (cache_keys.getD idx "") v ttl).2
      fillPhase cm ttl cache_keys rest r2 es2

/-- The observable outcome of `EmbeddingService.embed_batch`: the returned
embeddings (or the propagated upstream exception), the store afterwards, and
the list of requests issued to the upstream batch endpoint. -/
structure EmbedBatchOut where
  result : Except Err (List PyValue)
  redis : Redis
  upstream_calls : List (List String)

/-- `EmbeddingService.embed_batch`: per-text cache probe partitioning into
hits and misses, at most one upstream call carrying `to_compute`, write-back
of the new embeddings with `ttl=config.CACHE_TTL_EMBEDDINGS` (the parameter
`ttl`, since `config.py` is not part of the sources), and reassembly in input
order. An upstream failure is re-raised. `upstream` is the
`client.embeddings.create` collaborator restricted to this model. -/
def EmbeddingService.embed_batch (svc : EmbeddingService) (cm : CacheManager)
    (upstream : List String → Except Err (List PyValue)) (ttl : Option Int)
    (r : Redis) (texts : List String) : EmbedBatchOut :=
  if texts.isEmpty then ⟨.ok [], r, []⟩
  else
    let cache_keys := texts.map (fun t => svc.generate_cache_key (.str t))
    let scan := embedScan cm r 0 (texts.zip cache_keys)
    let embeddings := scan.1
    let to_compute := scan.2.1
    let to_compute_indices := scan.2.2
    if to_compute.isEmpty then ⟨.ok embeddings, r, []⟩
    else
      match upstream to_compute with
      | .error e => ⟨.error e, r, [to_compute]⟩
      | .ok vecs =>
          let filled :=
            fillPhase cm ttl cache_keys (to_compute_indices.zip vecs) r embeddings
          ⟨.ok filled.2, filled.1, [to_compute]⟩

/-- The branch condition of `embed_batch`'s cache probe for one text: `true`
when the text must be recomputed (no cached value, or a cached value that is
falsy). -/
def EmbeddingService.missB (svc : EmbeddingService) (cm : CacheManager)
    (r : Redis) (t : String) : Bool :=
  !(cm.get r (svc.generate_cache_key (.str t))).truthy

/-- Reference reassembly: walk the `(text, cache_key)` pairs in input order,
keeping each truthy cached value and consuming the next upstream vector for
each miss (a `.null` placeholder remains if the upstream reply is shorter
than the miss list). -/
def walkP (cm : CacheManager) (r : Redis) :
    List (String × String) → List PyValue → List PyValue
  | [], _ => []
  | (_, cache_key) :: rest, vs =>
      let c := cm.get r cache_key
      if c.truthy then c :: walkP cm r rest vs
      else
        match vs with
        | [] => .null :: walkP cm r rest []
        | v :: vs2 => v :: walkP cm r rest vs2

/-- The embeddings `embed_batch` returns, expressed positionally: cached
values at hit positions, the upstream vectors in order at miss positions. -/
def expectedEmbeddings (svc : EmbeddingService) (cm : CacheManager) (r : Redis)
    (texts : List String) (vs : List PyValue) : List PyValue :=
  walkP cm r (texts.zip (texts.map (fun t => svc.generate_cache_key (.str t)))) vs

/-- The vectors the upstream reply contributes to the reassembly: its payload
on success, nothing on failure (in which case `embed_batch` re-raises and
returns no list at all). -/
def upVecsOf : Except Err (List PyValue) → List PyValue
  | .ok vs => vs
  | .error _ => []

/-- One record of the neighborhood Cypher query (`type(r)`, `labels(m)`,
`m.id`, `m.name`, `m.type`, `m.description`). `description` may be `NULL`. -/
structure NeoRecord where
  rel : String
  labels : List String
  id : String
  name : String
  type : String
  description : Option String

/-- The fact dict `fetch_neighborhood` appends for one record:
`(record["description"] or "")[:400]` truncates the description. -/
def recordToFact (node_id : String) (rec : NeoRecord) : PyValue :=
  .dict [("source", .str node_id),
         ("rel", .str rec.rel),
         ("target_id", .str rec.id),
         ("target_name", .str rec.name),
         ("target_type", .str rec.type),
         ("target_desc", .str ((rec.description.getD "").take 400)),
         ("labels", .list (rec.labels.map PyValue.str))]

/-- The log line of `fetch_neighborhood`'s `except` arm. -/
def graphErrorLog (node_id : String) (e : Err) : String :=
  "Error fetching neighborhood for " ++ node_id ++ ": " ++ e

/-- The body of `GraphDBService.fetch_neighborhood` (inside the decorator):
map the session records to fact dicts; catch any exception, log it and return
an empty list. `sess` is the outcome of running the Cypher query. Only the
error log line is modelled; debug logging is a no-op here. -/
def fetch_neighborhood_body (node_id : String)
    (sess : Except Err (List NeoRecord)) : List PyValue × List String :=
  match sess with
  | .ok records => (records.map (recordToFact node_id), [])
  | .error e => ([], [graphErrorLog node_id e])

/-- The facts one node contributes when its neighborhood is computed (rather
than served from cache): its records' fact dicts, or `[]` when the fetch
raised. -/
def contribution (G : String → Except Err (List NeoRecord)) (node_id : String) :
    List PyValue :=
  (fetch_neighborhood_body node_id (G node_id)).1

/-- The cache key the decorator derives for
`fetch_neighborhood(node_id, depth, limit)`: the positional arguments are
`(self, node_id, depth, limit)`, entering `str(args)` via their `repr`s
(`self_repr` is the service object's `repr`, constant for one instance). -/
def graphKey (md5hex : String → String) (self_repr : String)
    (depth limit : Int) (node_id : String) : String :=
  CacheManager.generate_key md5hex "graph_context"
    [self_repr, pyReprStr node_id, intRepr depth, intRepr limit] []

/-- The observable outcome of one call to the decorated
`fetch_neighborhood`. -/
structure FetchOut where
  value : PyValue
  redis : Redis
  logs : List String

/-- `GraphDBService.fetch_neighborhood` as callers see it: the `@cached`
wrapper around `fetch_neighborhood_body`, with
`ttl=config.CACHE_TTL_GRAPH_CONTEXT` (the parameter `ttl`). `G` is the graph
collaborator: the outcome of the per-node Cypher query. -/
def fetch_neighborhood (cm : CacheManager)
    (G : String → Except Err (List NeoRecord)) (self_repr : String)
    (md5hex : String → String) (ttl : Option Int) (r : Redis)
    (node_id : String) (depth limit : Int) : FetchOut :=
  let cache_key := graphKey md5hex self_repr depth limit node_id
  let cached_result := cm.get r cache_key
  if !cached_result.isNull then ⟨cached_result, r, []⟩
  else
    let facts := (fetch_neighborhood_body node_id (G node_id)).1
    let logs := (fetch_neighborhood_body node_id (G node_id)).2
    let r2 := (cm.set r cache_key (.list facts) ttl).2
    ⟨.list facts, r2, logs⟩

/-- `list.extend(x)` over a JSON value that is an array (the only shape this
layer ever stores or returns under a `graph_context` key). -/
def PyValue.elems : PyValue → List PyValue
  | .list xs => xs
  | _ => []

/-- The observable outcome of `fetch_multi_neighborhood`. -/
structure MultiFetchOut where
  facts : List PyValue
  redis : Redis
  logs : List String

/-- `GraphDBService.fetch_multi_neighborhood`: sequentially fetch each node's
neighborhood and extend `all_facts`. -/
def fetch_multi_neighborhood (cm : CacheManager)
    (G : String → Except Err (List NeoRecord)) (self_repr : String)
    (md5hex : String → String) (ttl : Option Int) (r : Redis)
    (node_ids : List String) (depth limit_per_node : Int) : MultiFetchOut :=
  match node_ids with
  | [] => ⟨[], r, []⟩
  | node_id :: rest =>
      let one := fetch_neighborhood cm G self_repr md5hex ttl r node_id depth limit_per_node
      let more := fetch_multi_neighborhood cm G self_repr md5hex ttl one.redis rest depth limit_per_node
      ⟨one.value.elems ++ more.facts, more.redis, one.logs ++ more.logs⟩

/-- `search` returns a list of dicts with `id`, `score` and `metadata`;
`retrieve_context` only reads `id`, so score and metadata are kept as one
opaque payload. -/
structure VectorMatch where
  id : String
  payload : PyValue

/-- The dict `retrieve_context` returns. -/
structure RetrievalContext where
  vector_matches : List VectorMatch
  graph_facts : List PyValue
  query : String

/-- The observable outcome of `HybridChatService.retrieve_context`. -/
structure RetrieveOut where
  result : Except Err RetrievalContext
  redis : Redis
  logs : List String

/-- `HybridChatService.retrieve_context`: vector search (the collaborator
result `vector_search`; a failure there propagates), extract the candidate
ids, fetch the graph context with `limit_per_node=10`, and assemble the
context dict. -/
def retrieve_context (cm : CacheManager)
    (G : String → Except Err (List NeoRecord)) (self_repr : String)
    (md5hex : String → String) (ttl : Option Int) (r : Redis)
    (vector_search : Except Err (List VectorMatch)) (query : String)
    (graph_depth : Int) : RetrieveOut :=
  match vector_search with
  | .error e => ⟨.error e, r, []⟩
  | .ok vector_matches =>
      let node_ids := vector_matches.map VectorMatch.id
      let gf := fetch_multi_neighborhood cm G self_repr md5hex ttl r node_ids graph_depth 10
      ⟨.ok ⟨vector_matches, gf.facts, query⟩, gf.redis, gf.logs⟩

/-- One invocation of a `CacheManager` method, for stating lifetime
properties of a degraded instance. -/
inductive CacheOp where
  | getOp (key : String)
  | setOp (key : String) (value : PyValue) (ttl : Option Int)
  | delOp (key : String)
  | clearPatternOp (pat : String)
  | flushAllOp

/-- The value a `CacheManager` method returns. -/
inductive CacheOpResult where
  | valueRes (v : PyValue)
  | boolRes (b : Bool)
  | natRes (n : Nat)

/-- Dispatch one method call on a `CacheManager` instance against the store. -/
def CacheManager.runOp (cm : CacheManager) (r : Redis) :
    CacheOp → CacheOpResult × Redis
  | .getOp k => (.valueRes (cm.get r k), r)
  | .setOp k v t => let (b, r2) := cm.set r k v t; (.boolRes b, r2)
  | .delOp k => let (b, r2) := cm.delete r k; (.boolRes b, r2)
  | .clearPatternOp p => let (n, r2) := cm.clear_pattern r p; (.natRes n, r2)
  | .flushAllOp => let (b, r2) := cm.flush_all r; (.boolRes b, r2)

/-- Run a whole lifetime of method calls on one `CacheManager` instance. -/
def CacheManager.runOps (cm : CacheManager) (r : Redis) :
    List CacheOp → List CacheOpResult × Redis
  | [] => ([], r)
  | op :: rest =>
      let (res, r2) := cm.runOp r op
      let (more, r3) := cm.runOps r2 rest
      (res :: more, r3)

/-- The fixed result each operation has on a degraded instance. -/
def noopResult : CacheOp → CacheOpResult
  | .getOp _ => .valueRes .null
  | .setOp _ _ _ => .boolRes false
  | .delOp _ => .boolRes false
  | .clearPatternOp _ => .natRes 0
  | .flushAllOp => .boolRes false

/-- The `embeddings[idx] = embedding` updates of `embed_batch`'s second loop,
isolated from the interleaved cache writes. -/
def fillES : List (Nat × PyValue) → List PyValue → List PyValue
  | [], es => es
  | (idx, v) :: rest, es => fillES rest (es.set idx v)

/-- The embedding service of one process run: CPython started with one hash
seed. The hash functions of `processA`/`processB` are two admissible
instances of the salted string hash (two differently-seeded runs need only
differ somewhere). -/
def processA : EmbeddingService :=
  ⟨"text-embedding-3-small", fun _ => 0⟩

/-- The same logical service in a second process run with a different hash
seed. -/
def processB : EmbeddingService :=
  ⟨"text-embedding-3-small", fun _ => 1⟩

/-- A concrete embedding service for concrete runs: hash instance mapping a
text to its first character's code point (distinct keys for the texts used
below). -/
def svcDemo : EmbeddingService :=
  ⟨"m", fun t => Int.ofNat ((t.data.headD 'x').toNat)⟩

/-- A connected cache manager with the shipped default TTL. -/
def cmDemo : CacheManager :=
  CacheManager.init true 3600

/-- A well-behaved upstream batch endpoint: one vector per submitted text. -/
def upstreamOk : List String → Except Err (List PyValue) :=
  fun ts => .ok (ts.map (fun t => .list [.str t]))

/-- An upstream batch endpoint whose call raises. -/
def upstreamFail : List String → Except Err (List PyValue) :=
  fun _ => .error "APIError"

/-- A store holding a cached embedding for the text "b" under the key that
`svcDemo` derives. -/
def redisPrecachedB : Redis :=
  [(svcDemo.generate_cache_key (.str "b"), ⟨.list [.int 2], 3600⟩)]

/-- A store holding a cached empty list (a falsy but valid value) for the
text "t" under the key that `svcDemo` derives. -/
def redisCachedEmptyVec : Redis :=
  [(svcDemo.generate_cache_key (.str "t"), ⟨.list [], 3600⟩)]

/-- A store holding a cached empty list under the key the `cached` decorator
derives for the namespace "embedding", one positional argument (the text
"t", entering via its repr) and no keyword arguments (with the identity
standing in for the MD5 hex digest). -/
def redisCachedEmptyList : Redis :=
  [(CacheManager.generate_key (fun s => s) "embedding" ["\x27t\x27"] [], ⟨.list [], 3600⟩)]

/-- A compute function for concrete runs. -/
def computeDemo : Unit → Except Err PyValue :=
  fun _ => .ok (.list [.int 9])

/-- A compute function whose call raises. -/
def computeFail : Unit → Except Err PyValue :=
  fun _ => .error "boom"

/-- A graph collaborator whose per-node Cypher query always raises. -/
def graphFail : String → Except Err (List NeoRecord) :=
  fun _ => .error "ServiceUnavailable"

/-- A graph collaborator for concrete runs: the query for "n2" raises, every
other node has one neighbor record. -/
def graphDemo : String → Except Err (List NeoRecord) := fun n =>
  if n = "n2" then .error "SessionExpired"
  else .ok [⟨"LOCATED_IN", ["City", "Entity"], "city_danang", "Da Nang",
    "City", some "Coastal city"⟩]

/-- Three vector matches for concrete runs. -/
def matchesDemo : List VectorMatch :=
  [⟨"n1", .dict [("score", .int 1)]⟩,
   ⟨"n2", .dict [("score", .int 1)]⟩,
   ⟨"n3", .dict [("score", .int 1)]⟩]

theorem lookup_filter_ne (r : Redis) (k k' : String) (h : k' ≠ k) :
    List.lookup k' (r.filter (fun kv => kv.1 != k)) = List.lookup k' r := by
  induction r with
  | nil => rfl
  | cons kv rest ih =>
      obtain ⟨a, b⟩ := kv
      by_cases hk : a = k
      · subst hk
        have hne : (k' == a) = false := by simp [h]
        simp [List.filter_cons, List.lookup, hne, ih]
      · by_cases hk' : k' = a
        · subst hk'
          simp [List.filter_cons, List.lookup, hk]
        · have hne : (k' == a) = false := by simp [hk']
          simp [List.filter_cons, List.lookup, hk, hne, ih]

theorem lookup_setex_self (r : Redis) (k : String) (e : RedisEntry) :
    List.lookup k (r.setex k e) = some e := by
  simp [Redis.setex, List.lookup]

theorem lookup_setex_ne (r : Redis) (k k' : String) (e : RedisEntry)
    (h : k' ≠ k) : List.lookup k' (r.setex k e) = List.lookup k' r := by
  have : (k' == k) = false := by simp [h]
  simp [Redis.setex, List.lookup, this, lookup_filter_ne r k k' h]

theorem CacheManager.get_degraded (cm : CacheManager) (r : Redis) (k : String)
    (h : cm.is_available = false) : cm.get r k = .null := by
  simp [CacheManager.get, h]

theorem CacheManager.get_of_lookup_none (cm : CacheManager) (r : Redis)
    (k : String) (h : List.lookup k r = none) : cm.get r k = .null := by
  unfold CacheManager.get
  split
  · rfl
  · rw [h]

theorem CacheManager.get_of_lookup_some (cm : CacheManager) (r : Redis)
    (k : String) (e : RedisEntry) (hav : cm.is_available = true)
    (h : List.lookup k r = some e) : cm.get r k = e.value := by
  unfold CacheManager.get
  rw [hav, h]
  simp [e.value.dumps_ne_empty]

theorem runOp_degraded (d : Int) (r : Redis) (op : CacheOp) :
    (CacheManager.init false d).runOp r op = (noopResult op, r) := by
  cases op <;> rfl

theorem runOps_degraded (d : Int) (r : Redis) (ops : List CacheOp) :
    (CacheManager.init false d).runOps r ops = (ops.map noopResult, r) := by
  induction ops generalizing r with
  | nil => rfl
  | cons op rest ih => simp [CacheManager.runOps, runOp_degraded, ih]

/-- **C8.** If the Redis handshake fails at construction, `__init__` catches
the error and leaves `self.client = None` instead of raising, so construction
is total; no method ever reassigns the client, so over any lifetime of
operations the instance stays degraded, the backing store is never touched,
and every operation returns its fixed no-op value: `get` returns `None`,
`set` returns `False`, `delete` returns `False`, `clear_pattern` returns `0`
and `flush_all` returns `False`. -/
theorem degraded_cache_noop_lifetime (default_ttl : Int) (r : Redis)
    (ops : List CacheOp) :
    (CacheManager.init false default_ttl).is_available = false ∧
    ((CacheManager.init false default_ttl).runOps r ops).1 = ops.map noopResult ∧
    ((CacheManager.init false default_ttl).runOps r ops).2 = r := by
  refine ⟨rfl, ?_, ?_⟩ <;> rw [runOps_degraded]

/-- **C10.** `CacheManager.set` computes `ttl or self.default_ttl`, so both
`ttl=None` and `ttl=0` store the entry with the process-wide default TTL, and
(whenever the default is nonzero, as the shipped `default_ttl=3600` is) no
entry is ever written with a zero-second expiry. -/
theorem set_falsy_ttl_uses_default (cm : CacheManager) (r : Redis)
    (key : String) (v : PyValue) (hav : cm.is_available = true)
    (hd : cm.default_ttl ≠ 0) :
    List.lookup key (cm.set r key v none).2 = some ⟨v, cm.default_ttl⟩ ∧
    List.lookup key (cm.set r key v (some 0)).2 = some ⟨v, cm.default_ttl⟩ ∧
    (∀ t e, List.lookup key (cm.set r key v t).2 = some e → e.ttl ≠ 0) := by
  unfold CacheManager.set
  rw [hav]
  refine ⟨?_, ?_, ?_⟩
  · simp [pyOrInt, lookup_setex_self]
  · simp [pyOrInt, lookup_setex_self]
  · intro t e he
    simp only [Bool.not_true, Bool.false_eq_true, if_false] at he
    rw [lookup_setex_self] at he
    cases he
    cases t with
    | none => exact hd
    | some t0 =>
        by_cases h0 : t0 = 0
        · simp only [pyOrInt, h0, if_true]
          exact hd
        · simp only [pyOrInt, h0, if_false]
          exact h0

theorem set_falsy_ttl_uses_default_witness :
    List.lookup "k"
      ((CacheManager.init true 3600).set [] "k" (.int 5) (some 0)).2 =
      some ⟨.int 5, 3600⟩ :=
  (set_falsy_ttl_uses_default (CacheManager.init true 3600) [] "k" (.int 5)
    rfl (by decide)).2.1

theorem sortItems_perm_invariant {k1 k2 : List (String × String)}
    (h : List.Perm k1 k2) : sortItems k1 = sortItems k2 :=
  List.eq_of_perm_of_sorted
    ((List.perm_insertionSort itemLe k1).trans
      (h.trans (List.perm_insertionSort itemLe k2).symm))
    (List.sorted_insertionSort itemLe k1)
    (List.sorted_insertionSort itemLe k2)

/-- **C9.** `_generate_key` is a pure function of `(prefix, args, kwargs)` —
calling it twice with identical inputs yields the identical key — and because
it serializes `sorted(kwargs.items())`, permuting the insertion order of the
keyword arguments does not change the derived key. -/
theorem generate_key_deterministic (md5hex : String → String) (pre : String)
    (args : List String) (k1 k2 : List (String × String))
    (hperm : List.Perm k1 k2) :
    CacheManager.generate_key md5hex pre args k1 =
      CacheManager.generate_key md5hex pre args k1 ∧
    CacheManager.generate_key md5hex pre args k1 =
      CacheManager.generate_key md5hex pre args k2 := by
  refine ⟨rfl, ?_⟩
  unfold CacheManager.generate_key
  rw [sortItems_perm_invariant hperm]

theorem generate_key_deterministic_witness :
    CacheManager.generate_key (fun s => s) "emb" ["\x27q\x27"]
        [("b", "2"), ("a", "1")] =
      CacheManager.generate_key (fun s => s) "emb" ["\x27q\x27"]
        [("a", "1"), ("b", "2")] :=
  (generate_key_deterministic (fun s => s) "emb" ["\x27q\x27"]
    [("b", "2"), ("a", "1")] [("a", "1"), ("b", "2")] (by decide)).2

/-- **C2.** The claim fails on the code: `_generate_cache_key` builds the
persistent embedding key from CPython's builtin `hash(text)`, which is salted
per process, so the same logical inputs `(model, "hello")` yield different
keys in two process runs — the key is not stable across restarts. (The
general codec `_generate_key` is MD5-based and is indeed stable; see
`generate_key_deterministic`.) -/
theorem embedding_key_varies_across_processes :
    processA.model = processB.model ∧
    processA.generate_cache_key (.str "hello") ≠
      processB.generate_cache_key (.str "hello") := by
  refine ⟨rfl, ?_⟩
  decide

theorem embedScan_to_compute (cm : CacheManager) (r : Redis) :
    ∀ (pairs : List (String × String)) (i : Nat),
      (embedScan cm r i pairs).2.1 =
        (pairs.filter (fun p => !(cm.get r p.2).truthy)).map Prod.fst := by
  intro pairs
  induction pairs with
  | nil => intro i; rfl
  | cons p rest ih =>
      intro i
      obtain ⟨t, k⟩ := p
      by_cases htr : (cm.get r k).truthy
      · simp [embedScan, htr, List.filter_cons, ih]
      · simp [embedScan, htr, List.filter_cons, ih]

theorem embedScan_shift (cm : CacheManager) (r : Redis) :
    ∀ (pairs : List (String × String)) (i : Nat),
      embedScan cm r (i + 1) pairs =
        ((embedScan cm r i pairs).1, (embedScan cm r i pairs).2.1,
          (embedScan cm r i pairs).2.2.map (· + 1)) := by
  intro pairs
  induction pairs with
  | nil => intro i; rfl
  | cons p rest ih =>
      intro i
      obtain ⟨t, k⟩ := p
      by_cases htr : (cm.get r k).truthy
      · simp [embedScan, htr, ih (i + 1), ih i]
      · simp [embedScan, htr, ih (i + 1), ih i]

theorem fillPhase_snd (cm : CacheManager) (ttl : Option Int)
    (cache_keys : List String) :
    ∀ (ps : List (Nat × PyValue)) (r : Redis) (es : List PyValue),
      (fillPhase cm ttl cache_keys ps r es).2 = fillES ps es := by
  intro ps
  induction ps with
  | nil => intro r es; rfl
  | cons p rest ih =>
      intro r es
      obtain ⟨idx, v⟩ := p
      simp [fillPhase, fillES, ih]

theorem fillES_shift :
    ∀ (ps : List (Nat × PyValue)) (x : PyValue) (es : List PyValue),
      fillES (ps.map (fun p => (p.1 + 1, p.2))) (x :: es) = x :: fillES ps es := by
  intro ps
  induction ps with
  | nil => intro x es; rfl
  | cons p rest ih =>
      intro x es
      obtain ⟨idx, v⟩ := p
      simp [fillES, List.set_cons_succ, ih]

theorem embedScan_es_walk_nil (cm : CacheManager) (r : Redis) :
    ∀ (pairs : List (String × String)) (i : Nat),
      (embedScan cm r i pairs).1 = walkP cm r pairs [] := by
  intro pairs
  induction pairs with
  | nil => intro i; rfl
  | cons p rest ih =>
      intro i
      obtain ⟨t, k⟩ := p
      by_cases htr : (cm.get r k).truthy
      · simp [embedScan, walkP, htr, ih]
      · simp [embedScan, walkP, htr, ih]

theorem zip_map_succ :
    ∀ (l : List Nat) (l2 : List PyValue),
      (l.map (fun x => x + 1)).zip l2 =
        (l.zip l2).map (fun p => (p.1 + 1, p.2)) := by
  intro l
  induction l with
  | nil => intro l2; rfl
  | cons a l ih => intro l2; cases l2 <;> simp [ih]

theorem scan_fill_walk (cm : CacheManager) (r : Redis) :
    ∀ (pairs : List (String × String)) (vs : List PyValue),
      fillES ((embedScan cm r 0 pairs).2.2.zip vs) (embedScan cm r 0 pairs).1 =
        walkP cm r pairs vs := by
  intro pairs
  induction pairs with
  | nil => intro vs; rfl
  | cons p rest ih =>
      intro vs
      obtain ⟨t, k⟩ := p
      by_cases htr : (cm.get r k).truthy
      · have hsh := embedScan_shift cm r rest 0
        simp only [embedScan, htr, if_true, hsh]
        rw [zip_map_succ, fillES_shift]
        simp [walkP, htr, ih]
      · have hsh := embedScan_shift cm r rest 0
        simp only [embedScan, htr, hsh, Bool.false_eq_true, if_false]
        cases vs with
        | nil =>
            simp only [List.zip_nil_right]
            simp [walkP, htr, fillES, embedScan_es_walk_nil cm r rest 0]
        | cons v vs2 =>
            rw [List.zip_cons_cons]
            show fillES (((embedScan cm r 0 rest).2.2.map (fun x => x + 1)).zip vs2)
              ((PyValue.null :: (embedScan cm r 0 rest).1).set 0 v) =
              walkP cm r ((t, k) :: rest) (v :: vs2)
            rw [List.set_cons_zero, zip_map_succ, fillES_shift]
            simp [walkP, htr, ih]

theorem walkP_length (cm : CacheManager) (r : Redis) :
    ∀ (pairs : List (String × String)) (vs : List PyValue),
      (walkP cm r pairs vs).length = pairs.length := by
  intro pairs
  induction pairs with
  | nil => intro vs; rfl
  | cons p rest ih =>
      intro vs
      obtain ⟨t, k⟩ := p
      by_cases htr : (cm.get r k).truthy
      · simp [walkP, htr, ih]
      · cases vs <;> simp [walkP, htr, ih]

theorem walkP_no_miss (cm : CacheManager) (r : Redis) :
    ∀ (pairs : List (String × String)),
      pairs.filter (fun p => !(cm.get r p.2).truthy) = [] →
      ∀ vs, walkP cm r pairs vs = walkP cm r pairs [] := by
  intro pairs
  induction pairs with
  | nil => intro _ vs; rfl
  | cons p rest ih =>
      intro hf vs
      obtain ⟨t, k⟩ := p
      rw [List.filter_cons] at hf
      by_cases htr : (cm.get r k).truthy
      · simp only [htr, Bool.not_true, if_false] at hf
        simp [walkP, htr, ih hf vs]
      · simp [htr] at hf

theorem texts_zip_keys (texts : List String) (keyf : String → String) :
    texts.zip (texts.map keyf) = texts.map (fun t => (t, keyf t)) := by
  induction texts with
  | nil => rfl
  | cons t rest ih => simp [ih]

theorem to_compute_eq_filter (svc : EmbeddingService) (cm : CacheManager)
    (r : Redis) (texts : List String) :
    (embedScan cm r 0
      (texts.zip (texts.map (fun t => svc.generate_cache_key (.str t))))).2.1 =
      texts.filter (svc.missB cm r) := by
  induction texts with
  | nil => rfl
  | cons t rest ih =>
      simp only [List.map_cons, List.zip_cons_cons, embedScan]
      rw [embedScan_shift]
      by_cases htr : (cm.get r (svc.generate_cache_key (.str t))).truthy
      · simp [htr, List.filter_cons, EmbeddingService.missB]
        exact ih
      · simp [htr, List.filter_cons, EmbeddingService.missB]
        exact ih

theorem embed_batch_calls (svc : EmbeddingService) (cm : CacheManager)
    (upstream : List String → Except Err (List PyValue)) (ttl : Option Int)
    (r : Redis) (texts : List String) :
    (svc.embed_batch cm upstream ttl r texts).upstream_calls =
      (if (texts.filter (svc.missB cm r)).isEmpty = true then []
       else [texts.filter (svc.missB cm r)]) := by
  by_cases ht : texts.isEmpty = true
  · have hte : texts = [] := List.isEmpty_iff.mp ht
    subst hte
    rfl
  · simp only [EmbeddingService.embed_batch, if_neg ht]
    rw [to_compute_eq_filter svc cm r texts]
    by_cases hm : (texts.filter (svc.missB cm r)).isEmpty = true
    · rw [if_pos hm, if_pos hm]
    · rw [if_neg hm, if_neg hm]
      cases hup : upstream (texts.filter (svc.missB cm r)) <;> simp [hup]

theorem embed_batch_result_ok (svc : EmbeddingService) (cm : CacheManager)
    (upstream : List String → Except Err (List PyValue)) (ttl : Option Int)
    (r : Redis) (texts : List String) (es : List PyValue)
    (hes : (svc.embed_batch cm upstream ttl r texts).result = .ok es) :
    es = expectedEmbeddings svc cm r texts
      (upVecsOf (upstream (texts.filter (svc.missB cm r)))) := by
  by_cases ht : texts.isEmpty = true
  · have hte : texts = [] := List.isEmpty_iff.mp ht
    subst hte
    simp only [EmbeddingService.embed_batch, List.isEmpty_nil, if_true] at hes
    cases hes
    rfl
  · simp only [EmbeddingService.embed_batch, if_neg ht] at hes
    rw [to_compute_eq_filter svc cm r texts] at hes
    by_cases hm : (texts.filter (svc.missB cm r)).isEmpty = true
    · rw [if_pos hm] at hes
      cases hes
      have hfe : texts.filter (svc.missB cm r) = [] := List.isEmpty_iff.mp hm
      have hpf : (texts.zip (texts.map (fun t => svc.generate_cache_key (.str t)))).filter
          (fun p => !(cm.get r p.2).truthy) = [] := by
        have h1 := embedScan_to_compute cm r
          (texts.zip (texts.map (fun t => svc.generate_cache_key (.str t)))) 0
        rw [to_compute_eq_filter svc cm r texts, hfe] at h1
        exact List.map_eq_nil_iff.mp h1.symm
      unfold expectedEmbeddings
      rw [walkP_no_miss cm r _ hpf]
      exact embedScan_es_walk_nil cm r _ 0
    · rw [if_neg hm] at hes
      cases hup : upstream (texts.filter (svc.missB cm r)) with
      | error e => rw [hup] at hes; cases hes
      | ok vecs =>
          rw [hup] at hes
          simp only at hes
          cases hes
          rw [fillPhase_snd]
          unfold expectedEmbeddings upVecsOf
          exact scan_fill_walk cm r _ vecs

theorem embed_batch_error (svc : EmbeddingService) (cm : CacheManager)
    (upstream : List String → Except Err (List PyValue)) (ttl : Option Int)
    (r : Redis) (texts : List String) (e : Err)
    (hm : ¬(texts.filter (svc.missB cm r)).isEmpty = true)
    (hup : upstream (texts.filter (svc.missB cm r)) = .error e) :
    (svc.embed_batch cm upstream ttl r texts).result = .error e := by
  have ht : ¬texts.isEmpty = true := by
    intro h
    rw [List.isEmpty_iff.mp h] at hm
    exact hm rfl
  simp only [EmbeddingService.embed_batch, if_neg ht]
  rw [to_compute_eq_filter svc cm r texts, if_neg hm, hup]

theorem cachedCall_hit (cm : CacheManager) (md5hex : String → String)
    (pre : String) (ttl : Option Int) (args : List String)
    (kwargs : List (String × String)) (r : Redis)
    (compute : Unit → Except Err PyValue) (v : PyValue)
    (hget : cm.get r (CacheManager.generate_key md5hex pre args kwargs) = v)
    (hv : v.isNull = false) :
    cachedCall cm md5hex pre ttl args kwargs r compute = ⟨.ok v, r, 0, 0⟩ := by
  simp only [cachedCall]
  rw [hget, hv]
  rfl

theorem cachedCall_miss_ok (cm : CacheManager) (md5hex : String → String)
    (pre : String) (ttl : Option Int) (args : List String)
    (kwargs : List (String × String)) (r : Redis)
    (compute : Unit → Except Err PyValue) (v : PyValue)
    (hget : cm.get r (CacheManager.generate_key md5hex pre args kwargs) = .null)
    (hok : compute () = .ok v) :
    cachedCall cm md5hex pre ttl args kwargs r compute =
      ⟨.ok v,
        (cm.set r (CacheManager.generate_key md5hex pre args kwargs) v ttl).2,
        1, 1⟩ := by
  simp only [cachedCall]
  rw [hget, hok]
  rfl

/-- **C3.** `embed_batch` returns exactly one embedding per input in the
original input order (output length equals input length, with
`expectedEmbeddings` placing each truthy cached value at its own index and
the upstream vectors, in submission order, at the miss indices), and performs
at most one upstream batch call per invocation, passing exactly the
miss-subset texts in their relative input order. -/
theorem embed_batch_order_single_upstream (svc : EmbeddingService)
    (cm : CacheManager) (upstream : List String → Except Err (List PyValue))
    (ttl : Option Int) (r : Redis) (texts : List String) :
    (svc.embed_batch cm upstream ttl r texts).upstream_calls =
      (if (texts.filter (svc.missB cm r)).isEmpty = true then []
       else [texts.filter (svc.missB cm r)]) ∧
    (svc.embed_batch cm upstream ttl r texts).upstream_calls.length ≤ 1 ∧
    (∀ es, (svc.embed_batch cm upstream ttl r texts).result = .ok es →
      es.length = texts.length ∧
      es = expectedEmbeddings svc cm r texts
        (upVecsOf (upstream (texts.filter (svc.missB cm r))))) := by
  refine ⟨embed_batch_calls svc cm upstream ttl r texts, ?_, ?_⟩
  · rw [embed_batch_calls]
    by_cases hm : (texts.filter (svc.missB cm r)).isEmpty = true
    · rw [if_pos hm]
      simp
    · rw [if_neg hm]
      simp
  · intro es hes
    have h1 := embed_batch_result_ok svc cm upstream ttl r texts es hes
    refine ⟨?_, h1⟩
    rw [h1]
    unfold expectedEmbeddings
    rw [walkP_length]
    simp [List.length_zip]

theorem embed_batch_order_single_upstream_witness :
    (svcDemo.embed_batch cmDemo upstreamOk (some 3600) redisPrecachedB
      ["a", "b", "c"]).upstream_calls = [["a", "c"]] ∧
    (svcDemo.embed_batch cmDemo upstreamOk (some 3600) redisPrecachedB
      ["a", "b", "c"]).result =
      .ok [.list [.str "a"], .list [.int 2], .list [.str "c"]] ∧
    ([PyValue.list [.str "a"], .list [.int 2], .list [.str "c"]]).length = 3 ∧
    [PyValue.list [.str "a"], .list [.int 2], .list [.str "c"]] =
      expectedEmbeddings svcDemo cmDemo redisPrecachedB ["a", "b", "c"]
        (upVecsOf (upstreamOk (["a", "b", "c"].filter
          (svcDemo.missB cmDemo redisPrecachedB)))) := by
  have h := embed_batch_order_single_upstream svcDemo cmDemo upstreamOk
    (some 3600) redisPrecachedB ["a", "b", "c"]
  have hres : (svcDemo.embed_batch cmDemo upstreamOk (some 3600) redisPrecachedB
      ["a", "b", "c"]).result =
      .ok [.list [.str "a"], .list [.int 2], .list [.str "c"]] := by rfl
  refine ⟨?_, hres, (h.2.2 _ hres).1, (h.2.2 _ hres).2⟩
  rw [h.1]
  rfl

/-- **C7.** If the miss set is non-empty and the single upstream
batch-embedding call fails, the entire `embed_batch` invocation fails with
the propagated error: no partial result is returned. -/
theorem embed_batch_upstream_failure_propagates (svc : EmbeddingService)
    (cm : CacheManager) (upstream : List String → Except Err (List PyValue))
    (ttl : Option Int) (r : Redis) (texts : List String) (e : Err)
    (hm : ¬(texts.filter (svc.missB cm r)).isEmpty = true)
    (hup : upstream (texts.filter (svc.missB cm r)) = .error e) :
    (svc.embed_batch cm upstream ttl r texts).result = .error e :=
  embed_batch_error svc cm upstream ttl r texts e hm hup

theorem embed_batch_upstream_failure_propagates_witness :
    (svcDemo.embed_batch cmDemo upstreamFail (some 3600) redisPrecachedB
      ["a", "b", "c"]).result = .error "APIError" :=
  embed_batch_upstream_failure_propagates svcDemo cmDemo upstreamFail
    (some 3600) redisPrecachedB ["a", "b", "c"] "APIError" (by decide) rfl

/-- **C1 counterexample.** Caching a falsy-but-valid result and re-requesting
it is NOT a hit on the batch embedding path: with the empty list cached under
the key of "t" (and returned by `CacheManager.get`), `embed_batch ["t"]` still
invokes the upstream compute with `["t"]`, because the hit test
`if cached_embedding:` uses Python truthiness. -/
theorem embed_batch_cached_empty_recomputed :
    CacheManager.get cmDemo redisCachedEmptyVec
      (svcDemo.generate_cache_key (.str "t")) = .list [] ∧
    (svcDemo.embed_batch cmDemo upstreamOk (some 3600) redisCachedEmptyVec
      ["t"]).upstream_calls = [["t"]] := by
  exact ⟨rfl, rfl⟩

/-- **C1 (amended).** The single-call decorator returns any cached non-`None`
value — in particular a cached empty list, zero, or empty string — as a hit
without invoking the compute function again; but in the batch embedding
path a cached value counts as a hit only when truthy, so a text whose cached
embedding is falsy is re-sent to the upstream compute. -/
theorem falsy_cached_value_hit_amended (cm : CacheManager)
    (md5hex : String → String) (pre : String) (ttl : Option Int)
    (args : List String) (kwargs : List (String × String)) (r : Redis)
    (compute : Unit → Except Err PyValue) (v : PyValue) (tl : Int)
    (hav : cm.is_available = true)
    (hlk : List.lookup (CacheManager.generate_key md5hex pre args kwargs) r =
      some ⟨v, tl⟩)
    (hv : v.isNull = false) :
    (cachedCall cm md5hex pre ttl args kwargs r compute).result = .ok v ∧
    (cachedCall cm md5hex pre ttl args kwargs r compute).compute_calls = 0 ∧
    (∀ (svc : EmbeddingService) upstream ttl2 (texts : List String) (t : String),
      t ∈ texts → svc.missB cm r t = true →
      (svc.embed_batch cm upstream ttl2 r texts).upstream_calls ≠ [] ∧
      (∀ c ∈ (svc.embed_batch cm upstream ttl2 r texts).upstream_calls,
        t ∈ c)) := by
  have hget : cm.get r (CacheManager.generate_key md5hex pre args kwargs) = v :=
    CacheManager.get_of_lookup_some cm r _ ⟨v, tl⟩ hav hlk
  refine ⟨?_, ?_, ?_⟩
  · rw [cachedCall_hit cm md5hex pre ttl args kwargs r compute v hget hv]
  · rw [cachedCall_hit cm md5hex pre ttl args kwargs r compute v hget hv]
  · intro svc upstream ttl2 texts t hmem hmiss
    have hin : t ∈ texts.filter (svc.missB cm r) :=
      List.mem_filter.mpr ⟨hmem, hmiss⟩
    have hne : ¬(texts.filter (svc.missB cm r)).isEmpty = true := by
      intro he
      rw [List.isEmpty_iff.mp he] at hin
      cases hin
    rw [embed_batch_calls svc cm upstream ttl2 r texts, if_neg hne]
    constructor
    · intro h
      cases h
    · intro c hc
      rw [List.mem_singleton] at hc
      rw [hc]
      exact hin

theorem falsy_cached_value_hit_amended_witness :
    (cachedCall cmDemo (fun s => s) "embedding" (some 3600) ["\x27t\x27"] []
      redisCachedEmptyList computeDemo).result = .ok (.list []) ∧
    (cachedCall cmDemo (fun s => s) "embedding" (some 3600) ["\x27t\x27"] []
      redisCachedEmptyList computeDemo).compute_calls = 0 ∧
    ((svcDemo.embed_batch cmDemo upstreamOk (some 3600) redisCachedEmptyVec
        ["t"]).upstream_calls ≠ [] ∧
      (∀ c ∈ (svcDemo.embed_batch cmDemo upstreamOk (some 3600)
          redisCachedEmptyVec ["t"]).upstream_calls, "t" ∈ c)) := by
  have h := falsy_cached_value_hit_amended cmDemo (fun s => s) "embedding"
    (some 3600) ["\x27t\x27"] [] redisCachedEmptyList computeDemo (.list []) 3600
    rfl rfl rfl
  exact ⟨h.1, h.2.1,
    h.2.2 svcDemo upstreamOk (some 3600) ["t"] "t" (by decide) (by decide)⟩

/-- **C4 counterexample.** For a compute function returning `None`, the
second call is NOT free: the wrapper's `if cached_result is not None` treats
the deserialized cached `null` as a miss, so the compute function is invoked
again (1 compute instead of the claimed 0). -/
theorem cached_none_result_recomputed :
    (cachedCall cmDemo (fun s => s) "vector_search" (some 900) ["\x27q\x27"] [] []
      (fun _ => .ok .null)).compute_calls = 1 ∧
    (cachedCall cmDemo (fun s => s) "vector_search" (some 900) ["\x27q\x27"] [] []
      (fun _ => .ok .null)).store_writes = 1 ∧
    (cachedCall cmDemo (fun s => s) "vector_search" (some 900) ["\x27q\x27"] []
      (cachedCall cmDemo (fun s => s) "vector_search" (some 900) ["\x27q\x27"] [] []
        (fun _ => .ok .null)).redis
      (fun _ => .ok .null)).compute_calls = 1 := by
  exact ⟨rfl, rfl, rfl⟩

/-- **C4 (amended).** For every compute function whose value at the given
input is not `None`: the first call with an empty store invokes the compute
function exactly once, performs exactly one store write and returns the
computed value; a second call with the same inputs invokes the compute
function zero times and returns the identical value. -/
theorem cache_aside_first_and_second_call (cm : CacheManager)
    (md5hex : String → String) (pre : String) (ttl : Option Int)
    (args : List String) (kwargs : List (String × String))
    (compute : Unit → Except Err PyValue) (v : PyValue)
    (hav : cm.is_available = true) (hok : compute () = .ok v)
    (hv : v.isNull = false) :
    (cachedCall cm md5hex pre ttl args kwargs [] compute).result = .ok v ∧
    (cachedCall cm md5hex pre ttl args kwargs [] compute).compute_calls = 1 ∧
    (cachedCall cm md5hex pre ttl args kwargs [] compute).store_writes = 1 ∧
    (cachedCall cm md5hex pre ttl args kwargs
      (cachedCall cm md5hex pre ttl args kwargs [] compute).redis
      compute).result = .ok v ∧
    (cachedCall cm md5hex pre ttl args kwargs
      (cachedCall cm md5hex pre ttl args kwargs [] compute).redis
      compute).compute_calls = 0 := by
  have hget0 : cm.get [] (CacheManager.generate_key md5hex pre args kwargs) =
      .null :=
    CacheManager.get_of_lookup_none cm [] _ rfl
  have hfirst : cachedCall cm md5hex pre ttl args kwargs [] compute =
      ⟨.ok v,
        (cm.set [] (CacheManager.generate_key md5hex pre args kwargs) v ttl).2,
        1, 1⟩ :=
    cachedCall_miss_ok cm md5hex pre ttl args kwargs [] compute v hget0 hok
  have hr1 : (cachedCall cm md5hex pre ttl args kwargs [] compute).redis =
      Redis.setex [] (CacheManager.generate_key md5hex pre args kwargs)
        ⟨v, pyOrInt ttl cm.default_ttl⟩ := by
    rw [hfirst]
    show (cm.set [] (CacheManager.generate_key md5hex pre args kwargs) v ttl).2 = _
    unfold CacheManager.set
    rw [hav]
    rfl
  have hlk : List.lookup (CacheManager.generate_key md5hex pre args kwargs)
      (cachedCall cm md5hex pre ttl args kwargs [] compute).redis =
      some ⟨v, pyOrInt ttl cm.default_ttl⟩ := by
    rw [hr1]
    exact lookup_setex_self [] _ _
  have hget1 : cm.get (cachedCall cm md5hex pre ttl args kwargs [] compute).redis
      (CacheManager.generate_key md5hex pre args kwargs) = v :=
    CacheManager.get_of_lookup_some cm _ _ _ hav hlk
  refine ⟨?_, ?_, ?_, ?_, ?_⟩
  · rw [hfirst]
  · rw [hfirst]
  · rw [hfirst]
  · rw [cachedCall_hit cm md5hex pre ttl args kwargs _ compute v hget1 hv]
  · rw [cachedCall_hit cm md5hex pre ttl args kwargs _ compute v hget1 hv]

theorem cache_aside_first_and_second_call_witness :
    (cachedCall cmDemo (fun s => s) "embedding" (some 3600) ["\x27q\x27"] [] []
      computeDemo).result = .ok (.list [.int 9]) ∧
    (cachedCall cmDemo (fun s => s) "embedding" (some 3600) ["\x27q\x27"] []
      (cachedCall cmDemo (fun s => s) "embedding" (some 3600) ["\x27q\x27"] [] []
        computeDemo).redis
      computeDemo).compute_calls = 0 := by
  have h := cache_aside_first_and_second_call cmDemo (fun s => s) "embedding"
    (some 3600) ["\x27q\x27"] [] computeDemo (.list [.int 9]) rfl rfl rfl
  exact ⟨h.1, h.2.2.2.2⟩

/-- **C5 counterexample.** A failed per-node graph fetch DOES cause an
error-path result to be written to the cache under that node's key: the
Cypher query for "n1" raises, `fetch_neighborhood` swallows the error and
returns `[]`, and the `cached` wrapper stores that `[]` under the node's
`graph_context` key. -/
theorem graph_error_result_cached :
    graphFail "n1" = .error "ServiceUnavailable" ∧
    (fetch_neighborhood cmDemo graphFail "<GraphDBService>" (fun s => s)
      (some 1800) [] "n1" 1 10).redis =
      [(graphKey (fun s => s) "<GraphDBService>" 1 10 "n1", ⟨.list [], 1800⟩)] := by
  exact ⟨rfl, rfl⟩

/-- **C5 (amended).** The `cached` wrapper itself never stores an entry when
the wrapped computation raises — the store is unchanged and the error
propagates to the caller; however, `fetch_neighborhood` converts its own
errors into an empty-list return value, so a failed per-node graph fetch
does write an empty-list entry to the cache under that node's key. -/
theorem cached_write_discipline (cm : CacheManager) (md5hex : String → String)
    (r : Redis) :
    (∀ pre ttl args kwargs (compute : Unit → Except Err PyValue) e,
      compute () = .error e →
      (cachedCall cm md5hex pre ttl args kwargs r compute).redis = r ∧
      (cachedCall cm md5hex pre ttl args kwargs r compute).store_writes = 0 ∧
      ((cm.get r (CacheManager.generate_key md5hex pre args kwargs)).isNull =
          true →
        (cachedCall cm md5hex pre ttl args kwargs r compute).result =
          .error e)) ∧
    (∀ (G : String → Except Err (List NeoRecord)) self_repr ttl node_id
        (depth limit : Int) e,
      G node_id = .error e → cm.is_available = true →
      List.lookup (graphKey md5hex self_repr depth limit node_id) r = none →
      List.lookup (graphKey md5hex self_repr depth limit node_id)
        (fetch_neighborhood cm G self_repr md5hex ttl r node_id depth
          limit).redis =
        some ⟨.list [], pyOrInt ttl cm.default_ttl⟩) := by
  constructor
  · intro pre ttl args kwargs compute e hc
    by_cases hn :
        (cm.get r (CacheManager.generate_key md5hex pre args kwargs)).isNull = true
    · refine ⟨?_, ?_, ?_⟩ <;> intros <;> simp [cachedCall, hn, hc]
    · refine ⟨?_, ?_, ?_⟩
      · simp [cachedCall, hn]
      · simp [cachedCall, hn]
      · intro h
        exact absurd h hn
  · intro G self_repr ttl node_id depth limit e hG hav hlk
    have hget : cm.get r (graphKey md5hex self_repr depth limit node_id) =
        .null :=
      CacheManager.get_of_lookup_none cm r _ hlk
    simp only [fetch_neighborhood, hget, PyValue.isNull, Bool.not_true,
      Bool.false_eq_true, if_false, hG, fetch_neighborhood_body]
    simp only [CacheManager.set, hav, Bool.not_true, Bool.false_eq_true,
      if_false]
    exact lookup_setex_self r _ _

theorem cached_write_discipline_witness :
    (cachedCall cmDemo (fun s => s) "graph_context" none ["\x27x\x27"] [] []
      computeFail).redis = ([] : Redis) ∧
    List.lookup (graphKey (fun s => s) "<GraphDBService>" 1 10 "n1")
      (fetch_neighborhood cmDemo graphFail "<GraphDBService>" (fun s => s)
        (some 1800) [] "n1" 1 10).redis = some ⟨.list [], 1800⟩ := by
  have h := cached_write_discipline cmDemo (fun s => s) ([] : Redis)
  exact ⟨(h.1 "graph_context" none ["\x27x\x27"] [] computeFail "boom" rfl).1,
    h.2 graphFail "<GraphDBService>" (some 1800) "n1" 1 10 "ServiceUnavailable"
      rfl rfl rfl⟩

theorem PyValue.eq_null_of_isNull (v : PyValue) (h : v.isNull = true) :
    v = .null := by
  cases v <;> first | rfl | exact absurd h (by simp [PyValue.isNull])

theorem CacheManager.get_cases (cm : CacheManager) (r : Redis) (k : String) :
    cm.get r k = .null ∨
      ∃ e, List.lookup k r = some e ∧ cm.get r k = e.value := by
  by_cases hav : cm.is_available
  · cases h : List.lookup k r with
    | none => left; exact CacheManager.get_of_lookup_none cm r k h
    | some e =>
        right
        exact ⟨e, rfl, CacheManager.get_of_lookup_some cm r k e hav h⟩
  · left
    exact CacheManager.get_degraded cm r k (Bool.not_eq_true _ ▸ hav)

theorem set_snd_cases (cm : CacheManager) (r : Redis) (k : String)
    (v : PyValue) (ttl : Option Int) :
    (cm.set r k v ttl).2 = r ∨
      (cm.set r k v ttl).2 = r.setex k ⟨v, pyOrInt ttl cm.default_ttl⟩ := by
  unfold CacheManager.set
  by_cases hav : cm.is_available
  · right; simp [hav]
  · left; simp [hav]

theorem fetch_neighborhood_hit (cm : CacheManager)
    (G : String → Except Err (List NeoRecord)) (self_repr : String)
    (md5hex : String → String) (ttl : Option Int) (r : Redis)
    (node_id : String) (depth limit : Int) (v : PyValue)
    (hget : cm.get r (graphKey md5hex self_repr depth limit node_id) = v)
    (hv : v.isNull = false) :
    fetch_neighborhood cm G self_repr md5hex ttl r node_id depth limit =
      ⟨v, r, []⟩ := by
  simp only [fetch_neighborhood]
  rw [hget, hv]
  rfl

theorem fetch_neighborhood_miss (cm : CacheManager)
    (G : String → Except Err (List NeoRecord)) (self_repr : String)
    (md5hex : String → String) (ttl : Option Int) (r : Redis)
    (node_id : String) (depth limit : Int)
    (hget : cm.get r (graphKey md5hex self_repr depth limit node_id) = .null) :
    fetch_neighborhood cm G self_repr md5hex ttl r node_id depth limit =
      ⟨.list (contribution G node_id),
        (cm.set r (graphKey md5hex self_repr depth limit node_id)
          (.list (contribution G node_id)) ttl).2,
        (fetch_neighborhood_body node_id (G node_id)).2⟩ := by
  simp only [fetch_neighborhood]
  rw [hget]
  rfl

theorem fetch_multi_facts (cm : CacheManager)
    (G : String → Except Err (List NeoRecord)) (self_repr : String)
    (md5hex : String → String) (ttl : Option Int) (allIds : List String)
    (depth limit : Int)
    (hnd : ∀ m ∈ allIds, ∀ n ∈ allIds, m ≠ n →
      graphKey md5hex self_repr depth limit m ≠
        graphKey md5hex self_repr depth limit n) :
    ∀ (ids : List String) (r : Redis),
      (∀ x ∈ ids, x ∈ allIds) →
      (∀ k e, List.lookup k r = some e →
        ∃ m, m ∈ allIds ∧ k = graphKey md5hex self_repr depth limit m ∧
          e.value = .list (contribution G m)) →
      (fetch_multi_neighborhood cm G self_repr md5hex ttl r ids depth
          limit).facts = ids.flatMap (contribution G) ∧
      (∀ k e, List.lookup k
          (fetch_multi_neighborhood cm G self_repr md5hex ttl r ids depth
            limit).redis = some e →
        ∃ m, m ∈ allIds ∧ k = graphKey md5hex self_repr depth limit m ∧
          e.value = .list (contribution G m)) := by
  intro ids
  induction ids with
  | nil => intro r hsub hr; exact ⟨rfl, hr⟩
  | cons n rest ih =>
      intro r hsub hr
      have hnAll : n ∈ allIds := hsub n (List.mem_cons_self n rest)
      have hsub' : ∀ x ∈ rest, x ∈ allIds := fun x hx =>
        hsub x (List.mem_cons_of_mem n hx)
      rcases CacheManager.get_cases cm r
          (graphKey md5hex self_repr depth limit n) with hnull | ⟨e, hlke, hve⟩
      · -- cache miss: the body runs and its result is written back
        have hone := fetch_neighborhood_miss cm G self_repr md5hex ttl r n
          depth limit hnull
        have hr2 : ∀ k e2, List.lookup k
            (cm.set r (graphKey md5hex self_repr depth limit n)
              (.list (contribution G n)) ttl).2 = some e2 →
            ∃ m, m ∈ allIds ∧ k = graphKey md5hex self_repr depth limit m ∧
              e2.value = .list (contribution G m) := by
          intro k e2 hk
          rcases set_snd_cases cm r (graphKey md5hex self_repr depth limit n)
              (.list (contribution G n)) ttl with hs | hs
          · rw [hs] at hk
            exact hr k e2 hk
          · rw [hs] at hk
            by_cases hkk : k = graphKey md5hex self_repr depth limit n
            · subst hkk
              rw [lookup_setex_self] at hk
              cases hk
              exact ⟨n, hnAll, rfl, rfl⟩
            · rw [lookup_setex_ne _ _ _ _ hkk] at hk
              exact hr k e2 hk
        have hrest := ih _ hsub' hr2
        constructor
        · simp only [fetch_multi_neighborhood, hone]
          rw [hrest.1]
          simp [PyValue.elems, List.flatMap_cons]
        · simp only [fetch_multi_neighborhood, hone]
          exact hrest.2
      · -- cache hit: the stored entry is some node's contribution
        obtain ⟨m, hmAll, hkm, hvm⟩ := hr _ e hlke
        have hmn : m = n := by
          by_contra hne
          exact hnd m hmAll n hnAll hne hkm.symm
        subst hmn
        have hvnull : e.value.isNull = false := by
          rw [hvm]
          rfl
        have hone := fetch_neighborhood_hit cm G self_repr md5hex ttl r m
          depth limit e.value hve hvnull
        have hrest := ih _ hsub' hr
        constructor
        · simp only [fetch_multi_neighborhood, hone]
          rw [hrest.1, hvm]
          simp [PyValue.elems, List.flatMap_cons]
        · simp only [fetch_multi_neighborhood, hone]
          exact hrest.2

theorem fetch_multi_logs (cm : CacheManager)
    (G : String → Except Err (List NeoRecord)) (self_repr : String)
    (md5hex : String → String) (ttl : Option Int) (allIds : List String)
    (depth limit : Int) (bad : String) (err : Err)
    (hnd : ∀ m ∈ allIds, ∀ n ∈ allIds, m ≠ n →
      graphKey md5hex self_repr depth limit m ≠
        graphKey md5hex self_repr depth limit n)
    (hbadAll : bad ∈ allIds) (herr : G bad = .error err) :
    ∀ (ids : List String) (r : Redis),
      (∀ x ∈ ids, x ∈ allIds) → bad ∈ ids →
      List.lookup (graphKey md5hex self_repr depth limit bad) r = none →
      graphErrorLog bad err ∈
        (fetch_multi_neighborhood cm G self_repr md5hex ttl r ids depth
          limit).logs := by
  intro ids
  induction ids with
  | nil => intro r _ hmem _; cases hmem
  | cons n rest ih =>
      intro r hsub hmem hlk
      have hnAll : n ∈ allIds := hsub n (List.mem_cons_self n rest)
      have hsub' : ∀ x ∈ rest, x ∈ allIds := fun x hx =>
        hsub x (List.mem_cons_of_mem n hx)
      by_cases heq : n = bad
      · subst heq
        have hget : cm.get r (graphKey md5hex self_repr depth limit n) =
            .null := CacheManager.get_of_lookup_none cm r _ hlk
        have hone := fetch_neighborhood_miss cm G self_repr md5hex ttl r n
          depth limit hget
        simp only [fetch_multi_neighborhood, hone]
        apply List.mem_append_left
        rw [show fetch_neighborhood_body n (G n) =
          ([], [graphErrorLog n err]) from by rw [herr]; rfl]
        exact List.mem_singleton.mpr rfl
      · have hmem' : bad ∈ rest := by
          rcases List.mem_cons.mp hmem with h | h
          · exact absurd h.symm heq
          · exact h
        have hkne : graphKey md5hex self_repr depth limit bad ≠
            graphKey md5hex self_repr depth limit n := by
          intro h
          exact hnd bad (hsub' bad hmem') n hnAll (fun hh => heq hh.symm) h
        by_cases hn :
            (cm.get r (graphKey md5hex self_repr depth limit n)).isNull = true
        · have hnull : cm.get r (graphKey md5hex self_repr depth limit n) =
              .null := PyValue.eq_null_of_isNull _ hn
          have hone := fetch_neighborhood_miss cm G self_repr md5hex ttl r n
            depth limit hnull
          simp only [fetch_multi_neighborhood, hone]
          apply List.mem_append_right
          apply ih _ hsub' hmem'
          rcases set_snd_cases cm r (graphKey md5hex self_repr depth limit n)
              (.list (contribution G n)) ttl with hs | hs
          · rw [hs]
            exact hlk
          · rw [hs, lookup_setex_ne _ _ _ _ hkne]
            exact hlk
        · have hone := fetch_neighborhood_hit cm G self_repr md5hex ttl r n
            depth limit _ rfl (Bool.not_eq_true _ ▸ hn)
          simp only [fetch_multi_neighborhood, hone]
          apply List.mem_append_right
          exact ih _ hsub' hmem' hlk

/-- **C6.** For every candidate list (the ids of the vector matches), if one
node's graph fetch raises, that node contributes zero facts
(`contribution G bad = []`) while the retrieval still returns, in candidate
order, the facts of every node (failed ones contributing none), and the
failure is explicitly noted in the logs — the whole `retrieve_context` call
does not fail. Hypothesis `hnd`: distinct candidate ids derive distinct
`graph_context` cache keys (MD5 collision-freedom on this candidate set). -/
theorem retrieve_context_isolates_graph_failure (cm : CacheManager)
    (G : String → Except Err (List NeoRecord)) (self_repr : String)
    (md5hex : String → String) (ttl : Option Int) (vm : List VectorMatch)
    (query : String) (graph_depth : Int) (bad : String) (err : Err)
    (hnd : ∀ m ∈ vm.map VectorMatch.id, ∀ n ∈ vm.map VectorMatch.id, m ≠ n →
      graphKey md5hex self_repr graph_depth 10 m ≠
        graphKey md5hex self_repr graph_depth 10 n)
    (hbad : bad ∈ vm.map VectorMatch.id) (herr : G bad = .error err) :
    (retrieve_context cm G self_repr md5hex ttl [] (.ok vm) query
      graph_depth).result =
      .ok ⟨vm, (vm.map VectorMatch.id).flatMap (contribution G), query⟩ ∧
    contribution G bad = [] ∧
    graphErrorLog bad err ∈
      (retrieve_context cm G self_repr md5hex ttl [] (.ok vm) query
        graph_depth).logs := by
  have hempty : ∀ k (e : RedisEntry), List.lookup k ([] : Redis) = some e →
      ∃ m, m ∈ vm.map VectorMatch.id ∧
        k = graphKey md5hex self_repr graph_depth 10 m ∧
        e.value = .list (contribution G m) := by
    intro k e h
    cases h
  have hfacts := fetch_multi_facts cm G self_repr md5hex ttl
    (vm.map VectorMatch.id) graph_depth 10 hnd (vm.map VectorMatch.id) []
    (fun x hx => hx) hempty
  have hlogs := fetch_multi_logs cm G self_repr md5hex ttl
    (vm.map VectorMatch.id) graph_depth 10 bad err hnd hbad herr
    (vm.map VectorMatch.id) [] (fun x hx => hx) hbad rfl
  refine ⟨?_, ?_, ?_⟩
  · simp only [retrieve_context]
    rw [hfacts.1]
  · unfold contribution
    rw [show fetch_neighborhood_body bad (G bad) = ([], [graphErrorLog bad err])
      from by rw [herr]; rfl]
  · simp only [retrieve_context]
    exact hlogs

theorem retrieve_context_isolates_graph_failure_witness :
    (retrieve_context cmDemo graphDemo "<GraphDBService>" (fun s => s)
      (some 1800) [] (.ok matchesDemo) "best beaches near Da Nang" 1).result =
      .ok ⟨matchesDemo,
        (matchesDemo.map VectorMatch.id).flatMap (contribution graphDemo),
        "best beaches near Da Nang"⟩ ∧
    contribution graphDemo "n2" = [] ∧
    graphErrorLog "n2" "SessionExpired" ∈
      (retrieve_context cmDemo graphDemo "<GraphDBService>" (fun s => s)
        (some 1800) [] (.ok matchesDemo) "best beaches near Da Nang" 1).logs :=
  retrieve_context_isolates_graph_failure cmDemo graphDemo "<GraphDBService>"
    (fun s => s) (some 1800) matchesDemo "best beaches near Da Nang" 1 "n2"
    "SessionExpired" (by decide) (by decide) rfl

end TravelGraphRAG
